import Mathlib

/-!
# msauth: session controller and file-backed record store

A shallow embedding of `auth.go` (package msauth) and `provider/file.go`
(package provider).

* Go values `(x, err)` become pairs whose second component is an
  `Option GoError` (`none` is the nil error).
* Pointer receivers that mutate (`*Auth`) become functions returning the
  updated controller.
* Collaborators reached through interfaces or library calls (the record
  store, the device code credential, the cache constructor) act on an explicit
  `World`; every call the controller makes is appended to `World.trace`.
* The file system is an explicit map from file names to byte contents.
* Library code that is not part of the repository: `filepath.Join` and the
  plain `encoding/json` coding of the six record fields enter as the parameter
  `Lib`; the check that the record type of azidentity adds to JSON decoding
  (method `UnmarshalJSON`: only version "1.0" is accepted) is spelled out.
-/

set_option autoImplicit false

/-! ## Go errors -/

/-- GoError models the error values the program builds or passes on:
`errorString` is a leaf error (as made by `errors.New`, or raised by a
library), `wrapError` is the result of `fmt.Errorf` with one `%w` verb. -/
inductive GoError where
  | errorString (s : String)
  | wrapError (format : String) (err : GoError)
deriving DecidableEq, Repr

/-- Go `errors.New`. -/
def errorsNew (s : String) : GoError := GoError.errorString s

/-- Go `fmt.Errorf(format, err)` where `format` holds a single `%w`. -/
def fmtErrorf (format : String) (err : GoError) : GoError := GoError.wrapError format err

/-- Go `errors.Unwrap`. -/
def GoError.Unwrap : GoError → Option GoError
  | GoError.errorString _ => none
  | GoError.wrapError _ err => some err

/-! ## azidentity.AuthenticationRecord -/

/-- AuthenticationRecord is the struct `azidentity.AuthenticationRecord`: six
string fields, compared field by field by the Go operator `==`. -/
structure AuthenticationRecord where
  Authority : String
  ClientID : String
  HomeAccountID : String
  TenantID : String
  Username : String
  Version : String
deriving DecidableEq, Repr

/-- The zero value of the record type: every field is the empty string. -/
def emptyRecord : AuthenticationRecord := ⟨"", "", "", "", "", ""⟩

namespace msauth

/-! ## auth.go -/

/-- RecordProvider is the interface of `auth.go`, over a store state `σ`. -/
structure RecordProvider (σ : Type) where
  RetrieveRecord : σ → (AuthenticationRecord × Option GoError) × σ
  StoreRecord : AuthenticationRecord → σ → Option GoError × σ
  HasRecord : σ → (Bool × Option GoError) × σ

/-- DeviceCodeCredential is the library credential, over the state `κ` of the
identity service: `Authenticate` is the interactive exchange (its context
carries the five minute timeout, an expiry is one of its error results),
`GetToken` the silent token issuance for scopes and a tenant. -/
structure DeviceCodeCredential (κ : Type) where
  Authenticate : κ → (AuthenticationRecord × Option GoError) × κ
  GetToken : List String → String → κ → (String × Option GoError) × κ

/-- Call is one call made by the controller to a collaborator. -/
inductive Call where
  | RetrieveRecord
  | StoreRecord (r : AuthenticationRecord)
  | Authenticate
  | GetToken (scopes : List String) (tenantID : String)
  | cacheNew (name : String)
  | NewDeviceCodeCredential (clientID tenantID : String) (record : AuthenticationRecord)
deriving DecidableEq, Repr

/-- World is the state outside the controller: the store, the identity
service, and the log of calls made so far. -/
structure World (σ κ : Type) where
  store : σ
  cred : κ
  trace : List Call

/-- Auth is the struct `Auth`. -/
structure Auth (σ κ : Type) where
  Record : AuthenticationRecord
  credential : DeviceCodeCredential κ
  p : RecordProvider σ
  Scopes : List String

/-- DeviceCodeCredentialOptions holds the option fields set by `New`. -/
structure DeviceCodeCredentialOptions (γ : Type) where
  ClientID : String
  TenantID : String
  Cache : γ
  AuthenticationRecord : AuthenticationRecord

/-- Azure holds the two library constructors called by `New`: `cache.New`
(given the cache name) and `azidentity.NewDeviceCodeCredential`. -/
structure Azure (κ γ : Type) where
  cacheNew : String → Except GoError γ
  NewDeviceCodeCredential : DeviceCodeCredentialOptions γ → Except GoError (DeviceCodeCredential κ)

variable {σ κ γ : Type}

/-- Func `New`: retrieve the record, build the cache, check the identifiers,
build the credential, return the controller. -/
def New (az : Azure κ γ) (p : RecordProvider σ) (appName clientID tenantID : String)
    (scopes : List String) (w : World σ κ) :
    (Option (Auth σ κ) × Option GoError) × World σ κ :=
  let r := p.RetrieveRecord w.store
  let w1 : World σ κ := { w with store := r.2, trace := w.trace ++ [Call.RetrieveRecord] }
  match r.1.2 with
  | some err => ((none, some err), w1)
  | none =>
    let record := r.1.1
    let w2 : World σ κ := { w1 with trace := w1.trace ++ [Call.cacheNew appName] }
    match az.cacheNew appName with
    | Except.error err => ((none, some err), w2)
    | Except.ok c =>
      if clientID = "" then ((none, some (errorsNew "client id is not present")), w2)
      else if tenantID = "" then ((none, some (errorsNew "tenant id is not defined")), w2)
      else
        let opts : DeviceCodeCredentialOptions γ :=
          { ClientID := clientID, TenantID := tenantID, Cache := c,
            AuthenticationRecord := record }
        let w3 : World σ κ :=
          { w2 with trace := w2.trace ++ [Call.NewDeviceCodeCredential clientID tenantID record] }
        match az.NewDeviceCodeCredential opts with
        | Except.error err => ((none, some err), w3)
        | Except.ok cred =>
          ((some { Record := record, credential := cred, Scopes := scopes, p := p }, none), w3)

/-- Method `Auth.Login`. -/
def Auth.Login (a : Auth σ κ) (w : World σ κ) : Option GoError × Auth σ κ × World σ κ :=
  if a.Record = emptyRecord then (none, a, w)
  else
    let r := a.p.RetrieveRecord w.store
    let w1 : World σ κ := { w with store := r.2, trace := w.trace ++ [Call.RetrieveRecord] }
    if r.1.2 = none ∧ r.1.1 ≠ emptyRecord then (none, { a with Record := r.1.1 }, w1)
    else
      let r2 := a.credential.Authenticate w1.cred
      let w2 : World σ κ := { w1 with cred := r2.2, trace := w1.trace ++ [Call.Authenticate] }
      match r2.1.2 with
      | some err => (some (fmtErrorf "failed to authenticate: %w" err), a, w2)
      | none =>
        let a2 : Auth σ κ := { a with Record := r2.1.1 }
        let r3 := a.p.StoreRecord r2.1.1 w2.store
        let w3 : World σ κ :=
          { w2 with store := r3.2, trace := w2.trace ++ [Call.StoreRecord r2.1.1] }
        match r3.1 with
        | some err => (some (fmtErrorf "failed to store authentication record: %w" err), a2, w3)
        | none => (none, a2, w3)

/-- Method `Auth.Logout`. -/
def Auth.Logout (a : Auth σ κ) (w : World σ κ) : Option GoError × Auth σ κ × World σ κ :=
  let a1 : Auth σ κ := { a with Record := emptyRecord }
  let r := a.p.StoreRecord a1.Record w.store
  (r.1, a1, { w with store := r.2, trace := w.trace ++ [Call.StoreRecord a1.Record] })

/-- Method `Auth.Token`. -/
def Auth.Token (a : Auth σ κ) (w : World σ κ) : (String × Option GoError) × World σ κ :=
  let r := a.credential.GetToken a.Scopes a.Record.TenantID w.cred
  (r.1, { w with cred := r.2, trace := w.trace ++ [Call.GetToken a.Scopes a.Record.TenantID] })

/-- The two errors `New` builds for a missing identifier. -/
def isConfigError (e : GoError) : Bool :=
  e = errorsNew "client id is not present" || e = errorsNew "tenant id is not defined"

end msauth

namespace provider

/-! ## provider/file.go -/

/-- Lib holds the library functions used by `file.go` that live outside the
repository: `filepath.Join` on two elements, the bytes `json.Encoder.Encode`
produces for a record (or its error; the record type has no encoding method of
its own, so this is the plain `encoding/json` output), and `jsonUnmarshal`, the
plain `encoding/json` decoding of the bytes of a file into the six fields of a
zero record, with its error (syntax error, end of input, type mismatch). -/
structure Lib where
  filepathJoin : String → String → String
  jsonMarshal : AuthenticationRecord → Except GoError (List Nat)
  jsonUnmarshal : List Nat → AuthenticationRecord × Option GoError

/-- The library variable `supportedAuthRecordVersions` of azidentity. -/
def supportedAuthRecordVersions : List String := ["1.0"]

/-- Error of the library decoder for a record without a version. -/
def errNoVersion : GoError := errorsNew "AuthenticationRecord must have a version"

/-- Error of the library decoder for a record of another version. -/
def errUnsupportedVersion (v : String) : GoError :=
  GoError.errorString ("unsupported AuthenticationRecord version " ++ v)

/-- Library method `UnmarshalJSON` of `azidentity.AuthenticationRecord` (not
part of the repository): decode the fields the plain way, pass on a decoding
error, then refuse a record whose version is empty or is not one of the
supported versions. The fields stay as decoded in every case. -/
def UnmarshalJSON (lib : Lib) (b : List Nat) : AuthenticationRecord × Option GoError :=
  let a := lib.jsonUnmarshal b
  match a.2 with
  | some err => (a.1, some err)
  | none =>
    if a.1.Version = "" then (a.1, some errNoVersion)
    else if a.1.Version ∈ supportedAuthRecordVersions then (a.1, none)
    else (a.1, some (errUnsupportedVersion a.1.Version))

/-- Go `json.NewDecoder(file).Decode(&record)` on a zero record: the record
type implements the decoding interface, so its method `UnmarshalJSON` runs. -/
def jsonDecoderDecode (lib : Lib) (file : List Nat) : AuthenticationRecord × Option GoError :=
  UnmarshalJSON lib file

/-- FS is the file system as the store sees it: `files name` is the content of
the regular file of that name when it exists, `canCreate name` tells whether a
new file of that name may be created (its directory exists and is writable). -/
structure FS where
  files : String → Option (List Nat)
  canCreate : String → Bool

/-- Error of opening or removing a file that does not exist. -/
def ErrNotExist : GoError := GoError.errorString "no such file or directory"

/-- Replace the content of one file. -/
def FS.put (fs : FS) (name : String) (data : List Nat) : FS :=
  { fs with files := fun n => if n = name then some data else fs.files n }

/-- Go `os.Open`: the content of the opened file, or an error when missing. -/
def osOpen (fs : FS) (name : String) : Except GoError (List Nat) :=
  match fs.files name with
  | some data => Except.ok data
  | none => Except.error ErrNotExist

/-- Go `os.OpenFile(name, os.O_CREATE, 0755)`: opens an existing file as it is,
creates an empty one when absent and the directory allows it. -/
def osOpenFileCreate (fs : FS) (name : String) : Except GoError Unit × FS :=
  match fs.files name with
  | some _ => (Except.ok (), fs)
  | none =>
    if fs.canCreate name then (Except.ok (), fs.put name [])
    else (Except.error ErrNotExist, fs)

/-- Go `os.Create`: truncates an existing file, creates an empty one when
absent and the directory allows it. -/
def osCreate (fs : FS) (name : String) : Except GoError Unit × FS :=
  match fs.files name with
  | some _ => (Except.ok (), fs.put name [])
  | none =>
    if fs.canCreate name then (Except.ok (), fs.put name [])
    else (Except.error ErrNotExist, fs)

/-- Write on a file opened by `os.Create`: the bytes go after what the file
holds since it was opened. -/
def osWrite (fs : FS) (name : String) (data : List Nat) : FS :=
  match fs.files name with
  | some old => fs.put name (old ++ data)
  | none => fs

/-- Go `file.Stat` followed by `Size` on an open file. -/
def fileStatSize (data : List Nat) : Except GoError Nat := Except.ok data.length

/-- Go `file.Close`. -/
def fileClose : Option GoError := none

/-- Go `os.Remove`. -/
def osRemove (fs : FS) (name : String) : Option GoError × FS :=
  match fs.files name with
  | some _ => (none, { fs with files := fun n => if n = name then none else fs.files n })
  | none => (some ErrNotExist, fs)

/-- File is the struct `File`. -/
structure File where
  filename : String
deriving DecidableEq, Repr

/-- Func `NewFile`. -/
def NewFile (lib : Lib) (appConfig : String) (fs : FS) : (Option File × Option GoError) × FS :=
  let filename := lib.filepathJoin appConfig "credentials.json"
  match osOpenFileCreate fs filename with
  | (Except.error err, fs1) => ((none, some err), fs1)
  | (Except.ok _, fs1) =>
    match fileClose with
    | some err => ((none, some err), fs1)
    | none => ((some { filename := filename }, none), fs1)

/-- Method `File.RetrieveRecord`. -/
def File.RetrieveRecord (lib : Lib) (p : File) (fs : FS) : AuthenticationRecord × Option GoError :=
  let record := emptyRecord
  match osOpen fs p.filename with
  | Except.error err => (record, some err)
  | Except.ok file =>
    match fileStatSize file with
    | Except.error err => (record, some err)
    | Except.ok size =>
      if size = 0 then (record, none)
      else jsonDecoderDecode lib file

/-- Method `File.HasRecord`. -/
def File.HasRecord (lib : Lib) (p : File) (fs : FS) : Bool × Option GoError :=
  let r := File.RetrieveRecord lib p fs
  (decide (r.1 = emptyRecord), r.2)

/-- Method `File.StoreRecord`. -/
def File.StoreRecord (lib : Lib) (p : File) (record : AuthenticationRecord) (fs : FS) :
    Option GoError × FS :=
  match osCreate fs p.filename with
  | (Except.error err, fs1) => (some err, fs1)
  | (Except.ok _, fs1) =>
    match lib.jsonMarshal record with
    | Except.error err => (some err, fs1)
    | Except.ok data => (none, osWrite fs1 p.filename data)

/-- Method `File.ClearRecord`. -/
def File.ClearRecord (p : File) (fs : FS) : Option GoError × FS :=
  osRemove fs p.filename

/-- The file store seen through the interface `RecordProvider`. -/
def File.provider (lib : Lib) (p : File) : msauth.RecordProvider FS where
  RetrieveRecord := fun fs => (File.RetrieveRecord lib p fs, fs)
  StoreRecord := fun record fs => File.StoreRecord lib p record fs
  HasRecord := fun fs => (File.HasRecord lib p fs, fs)

/-- The law of plain `encoding/json` for a record `r`: whenever encoding `r`
yields bytes, they are not empty (the encoder always writes an object and a
newline) and the plain decoding of them gives back the fields of `r` with no
error. It says nothing of the version check of `UnmarshalJSON`. -/
def Lib.plainRoundTrips (lib : Lib) (r : AuthenticationRecord) : Prop :=
  ∀ data, lib.jsonMarshal r = Except.ok data →
    data ≠ [] ∧ lib.jsonUnmarshal data = (r, none)

end provider

/-! ## Sample collaborators

Small concrete collaborators on which the statements below are instantiated. -/

namespace msauth

/-- MemStore is an in-memory single slot store that can be told to fail. -/
structure MemStore where
  slot : AuthenticationRecord
  retrieveErr : Option GoError
  storeErr : Option GoError

/-- The provider of an in-memory store. -/
def memProvider : RecordProvider MemStore where
  RetrieveRecord := fun s =>
    match s.retrieveErr with
    | some e => ((emptyRecord, some e), s)
    | none => ((s.slot, none), s)
  StoreRecord := fun r s =>
    match s.storeErr with
    | some e => (some e, s)
    | none => (none, { s with slot := r })
  HasRecord := fun s =>
    match s.retrieveErr with
    | some e => ((false, some e), s)
    | none => ((decide (s.slot ≠ emptyRecord), none), s)

/-- A credential whose interactive exchange always gives the same answer. -/
def scriptedCredential (r : AuthenticationRecord) (err : Option GoError) :
    DeviceCodeCredential Unit where
  Authenticate := fun k => ((r, err), k)
  GetToken := fun _ tenantID k => ((tenantID, none), k)

/-- Library constructors that always succeed. -/
def stubAzure : Azure Unit Unit where
  cacheNew := fun _ => Except.ok ()
  NewDeviceCodeCredential := fun opts =>
    Except.ok (scriptedCredential opts.AuthenticationRecord none)

/-- A record as the identity service issues them. -/
def sampleRecord : AuthenticationRecord :=
  ⟨"https://login.microsoftonline.com", "app", "uid.utid", "contoso", "ada@contoso.com", "1.0"⟩

/-- A second record, of another tenant. -/
def otherRecord : AuthenticationRecord :=
  ⟨"https://login.microsoftonline.com", "app", "uid2.utid2", "fabrikam", "bob@fabrikam.com", "1.0"⟩

/-- A non-empty record carrying a version the library decoder does not know. -/
def futureRecord : AuthenticationRecord :=
  ⟨"https://login.microsoftonline.com", "app", "uid.utid", "contoso", "ada@contoso.com", "2.0"⟩

/-- An error raised by a store. -/
def diskError : GoError := GoError.errorString "input/output error"

/-- A controller holding `r` over the in-memory store. -/
def memAuth (r answer : AuthenticationRecord) (err : Option GoError) : Auth MemStore Unit where
  Record := r
  credential := scriptedCredential answer err
  p := memProvider
  Scopes := ["User.Read"]

/-- A world over the in-memory store with an empty call log. -/
def memWorld (slot : AuthenticationRecord) (retrieveErr storeErr : Option GoError) :
    World MemStore Unit where
  store := ⟨slot, retrieveErr, storeErr⟩
  cred := ()
  trace := []

end msauth

namespace provider

/-- Split a path at its separators. -/
def splitSeparator : List Char → List (List Char)
  | [] => [[]]
  | c :: cs =>
    if c = '/' then [] :: splitSeparator cs
    else
      match splitSeparator cs with
      | [] => [[c]]
      | x :: xs => (c :: x) :: xs

/-- One step of `filepath.Clean` over the elements kept so far (last first):
empty and dot elements vanish, a dot-dot element removes the element before it,
or vanishes at the root, or stays when nothing precedes it. -/
def cleanStep (rooted : Bool) (kept : List (List Char)) (el : List Char) : List (List Char) :=
  if el = [] ∨ el = ['.'] then kept
  else if el = ['.', '.'] then
    match kept with
    | [] => if rooted then [] else [el]
    | top :: rest => if top = ['.', '.'] then el :: kept else rest
  else el :: kept

/-- Go `filepath.Clean` with the separator of Unix. -/
def filepathClean (path : String) : String :=
  let cs := path.toList
  let rooted := decide (cs.head? = some '/')
  let kept := ((splitSeparator cs).foldl (cleanStep rooted) []).reverse
  let body := String.mk (List.intercalate ['/'] kept)
  let out := (if rooted then "/" else "") ++ body
  if out = "" then "." else out

/-- Go `filepath.Join` on two elements, with the separator of Unix: empty
elements are ignored, the rest is joined and cleaned; all empty gives the
empty string. -/
def filepathJoin (dir name : String) : String :=
  if dir = "" ∧ name = "" then ""
  else if dir = "" then filepathClean name
  else filepathClean (dir ++ "/" ++ name)

/-- One field of the sample codec: its length, then its characters. -/
def sampleEncodeField (s : String) : List Nat := s.length :: s.toList.map Char.toNat

/-- Read back one field of the sample codec. -/
def sampleDecodeField : List Nat → Option (String × List Nat)
  | [] => none
  | n :: rest =>
    if rest.length < n then none
    else some (String.mk ((rest.take n).map Char.ofNat), rest.drop n)

/-- Encoder of the sample codec: the six fields in order. -/
def sampleMarshal (r : AuthenticationRecord) : List Nat :=
  sampleEncodeField r.Authority ++ sampleEncodeField r.ClientID ++
  sampleEncodeField r.HomeAccountID ++ sampleEncodeField r.TenantID ++
  sampleEncodeField r.Username ++ sampleEncodeField r.Version

/-- Decoder of the sample codec: the six fields, nothing more. -/
def sampleUnmarshal (data : List Nat) : AuthenticationRecord × Option GoError :=
  let res : Option AuthenticationRecord := do
    let (f1, d1) ← sampleDecodeField data
    let (f2, d2) ← sampleDecodeField d1
    let (f3, d3) ← sampleDecodeField d2
    let (f4, d4) ← sampleDecodeField d3
    let (f5, d5) ← sampleDecodeField d4
    let (f6, _) ← sampleDecodeField d5
    pure ⟨f1, f2, f3, f4, f5, f6⟩
  match res with
  | some r => (r, none)
  | none => (emptyRecord, some (GoError.errorString "unexpected end of input"))

/-- A concrete instance of the library parameter: `filepath.Join` as above,
and for the plain coding of the six fields a length-prefixed stand-in, which
like `encoding/json` writes at least one byte and reads back what it wrote.
The version check of `UnmarshalJSON` applies on top of it as on any instance. -/
def sampleLib : Lib where
  filepathJoin := filepathJoin
  jsonMarshal := fun r => Except.ok (sampleMarshal r)
  jsonUnmarshal := sampleUnmarshal

/-- The credentials file of the sample configuration directory. -/
def sampleFile : File := { filename := "/cfg/credentials.json" }

/-- A file system holding only the given content at the sample file. -/
def fsWith (content : Option (List Nat)) : FS where
  files := fun n => if n = "/cfg/credentials.json" then content else none
  canCreate := fun n => decide (n = "/cfg/credentials.json")

end provider

/-! ## The session controller -/

namespace msauth

variable {σ κ γ : Type}

/-- C1: when the held record is the empty record, Login returns the nil error,
gives back the controller unchanged (so its record is still empty) and leaves
the world untouched: the store state, the identity service state and the call
log are the same, so neither RetrieveRecord, StoreRecord nor Authenticate was
called. -/
theorem login_empty_record_is_noop (a : Auth σ κ) (w : World σ κ)
    (h : a.Record = emptyRecord) :
    (a.Login w).1 = none ∧ (a.Login w).2.1 = a ∧ (a.Login w).2.1.Record = emptyRecord ∧
      (a.Login w).2.2 = w ∧ (a.Login w).2.2.trace = w.trace := by
  simp [Auth.Login, h]

/-- Instance of C1 on a fresh in-memory store. -/
theorem login_empty_record_is_noop_witness :
    (memAuth emptyRecord sampleRecord none).Record = emptyRecord ∧
      ((memAuth emptyRecord sampleRecord none).Login (memWorld emptyRecord none none)).1 = none ∧
      ((memAuth emptyRecord sampleRecord none).Login (memWorld emptyRecord none none)).2.2.trace
        = [] :=
  ⟨rfl,
   (login_empty_record_is_noop (memAuth emptyRecord sampleRecord none)
      (memWorld emptyRecord none none) rfl).1,
   (login_empty_record_is_noop (memAuth emptyRecord sampleRecord none)
      (memWorld emptyRecord none none) rfl).2.2.2.2⟩

/-- C2: when the held record is not empty and the store returns a non-empty
record R with the nil error, Login returns the nil error, the controller then
holds R, and the only call made is the one RetrieveRecord: no Authenticate, no
StoreRecord, and the identity service state is untouched. -/
theorem login_adopts_persisted_record (a : Auth σ κ) (w : World σ κ)
    (R : AuthenticationRecord) (s1 : σ)
    (hmem : a.Record ≠ emptyRecord)
    (hret : a.p.RetrieveRecord w.store = ((R, none), s1))
    (hR : R ≠ emptyRecord) :
    (a.Login w).1 = none ∧ (a.Login w).2.1.Record = R ∧
      (a.Login w).2.2.trace = w.trace ++ [Call.RetrieveRecord] ∧
      (a.Login w).2.2.cred = w.cred ∧ (a.Login w).2.2.store = s1 := by
  simp [Auth.Login, hmem, hret, hR]

/-- Instance of C2: memory holds one record, the store another. -/
theorem login_adopts_persisted_record_witness :
    ((memAuth sampleRecord sampleRecord none).Login (memWorld otherRecord none none)).1 = none ∧
      ((memAuth sampleRecord sampleRecord none).Login
        (memWorld otherRecord none none)).2.1.Record = otherRecord ∧
      ((memAuth sampleRecord sampleRecord none).Login
        (memWorld otherRecord none none)).2.2.trace = [Call.RetrieveRecord] :=
  have h := login_adopts_persisted_record (memAuth sampleRecord sampleRecord none)
    (memWorld otherRecord none none) otherRecord ⟨otherRecord, none, none⟩
    (by decide) rfl (by decide)
  ⟨h.1, h.2.1, h.2.2.1⟩

/-- C3: when the held record is not empty, the store yields no usable record
(an error, or the empty record), Authenticate succeeds with R and StoreRecord
of R fails with e, then Login returns the store wrapping of e (whose Unwrap is
e, and which is none of the authentication wrappings), and the controller holds
R afterwards. -/
theorem login_store_failure_keeps_record (a : Auth σ κ) (w : World σ κ)
    (R : AuthenticationRecord) (e : GoError) (k1 : κ) (s2 : σ)
    (hmem : a.Record ≠ emptyRecord)
    (hmiss : (a.p.RetrieveRecord w.store).1.2 ≠ none ∨
      (a.p.RetrieveRecord w.store).1.1 = emptyRecord)
    (hauth : a.credential.Authenticate w.cred = ((R, none), k1))
    (hstore : a.p.StoreRecord R (a.p.RetrieveRecord w.store).2 = (some e, s2)) :
    (a.Login w).1 = some (fmtErrorf "failed to store authentication record: %w" e) ∧
      ((a.Login w).1.bind GoError.Unwrap) = some e ∧
      (∀ e2, (a.Login w).1 ≠ some (fmtErrorf "failed to authenticate: %w" e2)) ∧
      (a.Login w).2.1.Record = R ∧
      (a.Login w).2.2.trace =
        w.trace ++ [Call.RetrieveRecord, Call.Authenticate, Call.StoreRecord R] := by
  have hcond : ¬ ((a.p.RetrieveRecord w.store).1.2 = none ∧
      (a.p.RetrieveRecord w.store).1.1 ≠ emptyRecord) := by
    rintro ⟨h1, h2⟩
    rcases hmiss with h | h
    · exact h h1
    · exact h2 h
  have hL : a.Login w =
      (some (fmtErrorf "failed to store authentication record: %w" e),
        { a with Record := R },
        { store := s2, cred := k1,
          trace := w.trace ++ [Call.RetrieveRecord] ++ [Call.Authenticate] ++
            [Call.StoreRecord R] }) := by
    simp only [Auth.Login, if_neg hmem, if_neg hcond, hauth, hstore]
  rw [hL]
  refine ⟨rfl, rfl, ?_, rfl, by simp⟩
  intro e2 h
  simp [fmtErrorf] at h

/-- Instance of C3: a store that is empty and whose StoreRecord always fails. -/
theorem login_store_failure_keeps_record_witness :
    ((memAuth sampleRecord otherRecord none).Login
        (memWorld emptyRecord none (some diskError))).1
      = some (fmtErrorf "failed to store authentication record: %w" diskError) ∧
    ((memAuth sampleRecord otherRecord none).Login
        (memWorld emptyRecord none (some diskError))).2.1.Record = otherRecord :=
  have h := login_store_failure_keeps_record (memAuth sampleRecord otherRecord none)
    (memWorld emptyRecord none (some diskError)) otherRecord diskError ()
    ⟨emptyRecord, none, some diskError⟩ (by decide) (Or.inr rfl) rfl rfl
  ⟨h.1, h.2.2.2.1⟩

/-- C4: Logout always leaves the controller with the empty record, makes
exactly one call, StoreRecord of the empty record, on the store state it was
given, and returns exactly the error of that call (nil or not); the store
state afterwards is the one that call produced. -/
theorem logout_resets_and_stores_empty (a : Auth σ κ) (w : World σ κ) :
    (a.Logout w).2.1.Record = emptyRecord ∧
      (a.Logout w).2.2.trace = w.trace ++ [Call.StoreRecord emptyRecord] ∧
      (a.Logout w).1 = (a.p.StoreRecord emptyRecord w.store).1 ∧
      (a.Logout w).2.2.store = (a.p.StoreRecord emptyRecord w.store).2 ∧
      (a.Logout w).2.2.cred = w.cred :=
  ⟨rfl, rfl, rfl, rfl, rfl⟩

/-- C5, as the code has it: when RetrieveRecord returns the nil error and the
cache constructor succeeds, an empty clientID or tenantID makes New return no
controller and a configuration error (the client one when clientID is empty,
the tenant one otherwise); by then RetrieveRecord and the cache constructor
have each been called once, and the credential constructor has not. -/
theorem new_rejects_missing_identifier (az : Azure κ γ) (p : RecordProvider σ)
    (appName clientID tenantID : String) (scopes : List String) (w : World σ κ) (c : γ)
    (hret : (p.RetrieveRecord w.store).1.2 = none)
    (hcache : az.cacheNew appName = Except.ok c)
    (hid : clientID = "" ∨ tenantID = "") :
    (New az p appName clientID tenantID scopes w).1 =
        (none, some (if clientID = "" then errorsNew "client id is not present"
          else errorsNew "tenant id is not defined")) ∧
      (∃ e, (New az p appName clientID tenantID scopes w).1.2 = some e ∧
        isConfigError e = true) ∧
      (New az p appName clientID tenantID scopes w).2.trace =
        w.trace ++ [Call.RetrieveRecord, Call.cacheNew appName] := by
  by_cases hc : clientID = ""
  · simp [New, hret, hcache, hc, isConfigError]
  · have ht : tenantID = "" := hid.resolve_left hc
    simp [New, hret, hcache, hc, ht, isConfigError]

/-- Instance of the amended C5: a working store, an empty tenant identifier. -/
theorem new_rejects_missing_identifier_witness :
    (New stubAzure memProvider "app" "client" "" ["User.Read"]
        (memWorld emptyRecord none none)).1.1.isNone = true ∧
      (New stubAzure memProvider "app" "client" "" ["User.Read"]
        (memWorld emptyRecord none none)).1.2 = some (errorsNew "tenant id is not defined") ∧
      (New stubAzure memProvider "app" "client" "" ["User.Read"]
        (memWorld emptyRecord none none)).2.trace = [Call.RetrieveRecord, Call.cacheNew "app"] :=
  have h := new_rejects_missing_identifier stubAzure memProvider "app" "client" ""
    ["User.Read"] (memWorld emptyRecord none none) () rfl rfl (Or.inr rfl)
  ⟨by rw [h.1]; rfl, by rw [h.1]; rfl, h.2.2⟩

/-- C5 as stated fails: with an empty clientID and a store whose RetrieveRecord
fails, New has called the store, and the error it returns is the store error,
not a configuration error. -/
theorem new_calls_store_before_validation :
    (New stubAzure memProvider "app" "" "tenant" ["User.Read"]
        (memWorld emptyRecord (some diskError) none)).1 = (none, some diskError) ∧
      isConfigError diskError = false ∧
      (New stubAzure memProvider "app" "" "tenant" ["User.Read"]
        (memWorld emptyRecord (some diskError) none)).2.trace = [Call.RetrieveRecord] := by
  refine ⟨rfl, by decide, rfl⟩

/-- C10, as the code has it: when the held record is not empty and
RetrieveRecord returns an error, Login goes on to the interactive exchange and
its result is decided by that path alone: the authentication wrapping of the
Authenticate error when there is one, else the store wrapping of the
StoreRecord error when there is one, else nil. The retrieval error is
discarded and plays no part in the result. -/
theorem login_after_retrieve_error (a : Auth σ κ) (w : World σ κ) (e0 : GoError)
    (hmem : a.Record ≠ emptyRecord)
    (hret : (a.p.RetrieveRecord w.store).1.2 = some e0) :
    (a.Login w).1 =
      (match (a.credential.Authenticate w.cred).1.2 with
        | some e => some (fmtErrorf "failed to authenticate: %w" e)
        | none =>
          (a.p.StoreRecord (a.credential.Authenticate w.cred).1.1
            (a.p.RetrieveRecord w.store).2).1.map
              (fmtErrorf "failed to store authentication record: %w")) ∧
      ((a.Login w).1 = none ↔
        ((a.credential.Authenticate w.cred).1.2 = none ∧
          (a.p.StoreRecord (a.credential.Authenticate w.cred).1.1
            (a.p.RetrieveRecord w.store).2).1 = none)) := by
  have hcond : ¬ ((a.p.RetrieveRecord w.store).1.2 = none ∧
      (a.p.RetrieveRecord w.store).1.1 ≠ emptyRecord) := by
    rintro ⟨h1, _⟩
    rw [hret] at h1
    exact Option.noConfusion h1
  simp only [Auth.Login, if_neg hmem, if_neg hcond]
  cases hau : (a.credential.Authenticate w.cred).1.2 with
  | some e => simp
  | none =>
    cases hst : (a.p.StoreRecord (a.credential.Authenticate w.cred).1.1
        (a.p.RetrieveRecord w.store).2).1 with
    | some e => simp
    | none => simp

/-- Instance of the amended C10: retrieval fails, and so does the exchange. -/
theorem login_after_retrieve_error_witness :
    ((memAuth sampleRecord otherRecord (some diskError)).Login
        (memWorld emptyRecord (some diskError) none)).1
      = some (fmtErrorf "failed to authenticate: %w" diskError) :=
  (login_after_retrieve_error (memAuth sampleRecord otherRecord (some diskError))
    (memWorld emptyRecord (some diskError) none) diskError (by decide) rfl).1

/-- C10 as stated fails: the held record is not empty, RetrieveRecord returns
an error, Authenticate and StoreRecord succeed, and Login returns nil. -/
theorem login_swallows_retrieve_error :
    (memAuth sampleRecord otherRecord none).Record ≠ emptyRecord ∧
      (memProvider.RetrieveRecord (memWorld emptyRecord (some diskError) none).store).1.2
        = some diskError ∧
      ((memAuth sampleRecord otherRecord none).Login
        (memWorld emptyRecord (some diskError) none)).1 = none := by
  refine ⟨by decide, rfl, rfl⟩

end msauth

/-! ## The file-backed store -/

namespace provider

/-- RetrieveRecord on a file that exists: the empty record when the file has
length zero, otherwise whatever the decoder makes of the content. -/
theorem retrieveRecord_of_content (lib : Lib) (p : File) (fs : FS) (data : List Nat)
    (h : fs.files p.filename = some data) :
    File.RetrieveRecord lib p fs =
      if data = [] then (emptyRecord, none) else jsonDecoderDecode lib data := by
  cases data with
  | nil => simp [File.RetrieveRecord, osOpen, fileStatSize, h]
  | cons b bs => simp [File.RetrieveRecord, osOpen, fileStatSize, h]

/-- A successful StoreRecord leaves in the file exactly the encoding of the
record, whatever the file held before. -/
theorem storeRecord_content (lib : Lib) (p : File) (R : AuthenticationRecord) (fs : FS)
    (hok : (File.StoreRecord lib p R fs).1 = none) :
    ∃ data, lib.jsonMarshal R = Except.ok data ∧
      (File.StoreRecord lib p R fs).2.files p.filename = some data := by
  unfold File.StoreRecord at hok ⊢
  cases hf : fs.files p.filename with
  | some old =>
    cases hm : lib.jsonMarshal R with
    | error e => simp [osCreate, hf, hm] at hok
    | ok data =>
      exact ⟨data, rfl, by simp [osCreate, hf, osWrite, FS.put]⟩
  | none =>
    cases hc : fs.canCreate p.filename with
    | false => simp [osCreate, hf, hc] at hok
    | true =>
      cases hm : lib.jsonMarshal R with
      | error e => simp [osCreate, hf, hc, hm] at hok
      | ok data =>
        exact ⟨data, rfl, by simp [osCreate, hf, hc, osWrite, FS.put]⟩

/-- The library decoder on bytes whose plain decoding is `R` with no error:
the version of `R` alone decides the outcome. -/
theorem decode_of_plain (lib : Lib) (data : List Nat) (R : AuthenticationRecord)
    (h : lib.jsonUnmarshal data = (R, none)) :
    jsonDecoderDecode lib data =
      if R.Version = "" then (R, some errNoVersion)
      else if R.Version ∈ supportedAuthRecordVersions then (R, none)
      else (R, some (errUnsupportedVersion R.Version)) := by
  simp [jsonDecoderDecode, UnmarshalJSON, h]

/-- RetrieveRecord after a successful StoreRecord of a record that plain JSON
round trips: the fields come back, and the version decides the error. -/
theorem retrieve_after_store (lib : Lib) (p : File) (R : AuthenticationRecord) (fs : FS)
    (hrt : lib.plainRoundTrips R)
    (hok : (File.StoreRecord lib p R fs).1 = none) :
    File.RetrieveRecord lib p (File.StoreRecord lib p R fs).2 =
      if R.Version = "" then (R, some errNoVersion)
      else if R.Version ∈ supportedAuthRecordVersions then (R, none)
      else (R, some (errUnsupportedVersion R.Version)) := by
  obtain ⟨data, hm, hfile⟩ := storeRecord_content lib p R fs hok
  obtain ⟨hne, hdec⟩ := hrt data hm
  rw [retrieveRecord_of_content lib p _ data hfile, if_neg hne, decode_of_plain lib data R hdec]

/-- Reading back one field of the sample codec. -/
theorem sampleDecodeField_encode (s : String) (rest : List Nat) :
    sampleDecodeField (sampleEncodeField s ++ rest) = some (s, rest) := by
  have hlen : (s.toList.map Char.toNat).length = s.length := by simp
  have hmap : (s.toList.map Char.toNat).map Char.ofNat = s.toList := by
    rw [List.map_map]
    conv_rhs => rw [← List.map_id s.toList]
    apply List.map_congr_left
    intro c _
    simp
  have htake : (s.toList.map Char.toNat ++ rest).take s.length = s.toList.map Char.toNat := by
    rw [← hlen]; exact List.take_left' rfl
  have hdrop : (s.toList.map Char.toNat ++ rest).drop s.length = rest := by
    rw [← hlen]; exact List.drop_left' rfl
  have hnot : ¬ (s.toList.map Char.toNat ++ rest).length < s.length := by
    simp
  simp only [sampleEncodeField, List.cons_append, sampleDecodeField, if_neg hnot, htake, hdrop,
    hmap]
  rfl

/-- The sample codec satisfies the law of plain JSON for every record. -/
theorem sampleLib_plainRoundTrips (R : AuthenticationRecord) : sampleLib.plainRoundTrips R := by
  intro data h
  have hd : data = sampleMarshal R := by
    simp only [sampleLib] at h
    exact (Except.ok.inj h).symm
  subst hd
  refine ⟨by simp [sampleMarshal, sampleEncodeField], ?_⟩
  show sampleUnmarshal (sampleMarshal R) = (R, none)
  simp only [sampleUnmarshal, sampleMarshal, List.append_assoc]
  rw [sampleDecodeField_encode]
  simp only [Option.bind_eq_bind, Option.some_bind]
  rw [sampleDecodeField_encode]
  simp only [Option.some_bind]
  rw [sampleDecodeField_encode]
  simp only [Option.some_bind]
  rw [sampleDecodeField_encode]
  simp only [Option.some_bind]
  rw [sampleDecodeField_encode]
  simp only [Option.some_bind]
  have h6 := sampleDecodeField_encode R.Version []
  rw [List.append_nil] at h6
  rw [h6]
  rfl

/-- C6, as the code has it: for the file store and every non-empty record R
whose version is "1.0", the one version the library decoder accepts, and whose
fields plain JSON round trips: if StoreRecord of R succeeds then the
RetrieveRecord that follows returns R with the nil error, whatever the file
held before; the file then holds exactly the encoding of R, prior content is
gone. -/
theorem store_then_retrieve_supported_version (lib : Lib) (p : File)
    (R : AuthenticationRecord) (fs : FS)
    (_hR : R ≠ emptyRecord)
    (hver : R.Version = "1.0")
    (hrt : lib.plainRoundTrips R)
    (hok : (File.StoreRecord lib p R fs).1 = none) :
    File.RetrieveRecord lib p (File.StoreRecord lib p R fs).2 = (R, none) ∧
      ∃ data, lib.jsonMarshal R = Except.ok data ∧
        (File.StoreRecord lib p R fs).2.files p.filename = some data := by
  refine ⟨?_, storeRecord_content lib p R fs hok⟩
  rw [retrieve_after_store lib p R fs hrt hok]
  simp [hver, supportedAuthRecordVersions]

/-- Instance of the amended C6: the file held another record before. -/
theorem store_then_retrieve_supported_version_witness :
    (File.StoreRecord sampleLib sampleFile msauth.sampleRecord
        (fsWith (some (sampleMarshal msauth.otherRecord)))).1 = none ∧
      File.RetrieveRecord sampleLib sampleFile
        (File.StoreRecord sampleLib sampleFile msauth.sampleRecord
          (fsWith (some (sampleMarshal msauth.otherRecord)))).2 = (msauth.sampleRecord, none) :=
  ⟨rfl,
   (store_then_retrieve_supported_version sampleLib sampleFile msauth.sampleRecord
      (fsWith (some (sampleMarshal msauth.otherRecord))) (by decide) rfl
      (sampleLib_plainRoundTrips msauth.sampleRecord) rfl).1⟩

/-- C6 as stated fails: a non-empty record of version "2.0" is stored with the
nil error into an empty file, its fields are read back by the plain decoding,
and RetrieveRecord returns them with the unsupported version error. -/
theorem store_then_retrieve_rejects_other_version :
    msauth.futureRecord ≠ emptyRecord ∧
      (File.StoreRecord sampleLib sampleFile msauth.futureRecord (fsWith (some []))).1 = none ∧
      sampleLib.jsonUnmarshal (sampleMarshal msauth.futureRecord) = (msauth.futureRecord, none) ∧
      File.RetrieveRecord sampleLib sampleFile
        (File.StoreRecord sampleLib sampleFile msauth.futureRecord (fsWith (some []))).2
        = (msauth.futureRecord, some (errUnsupportedVersion "2.0")) := by
  refine ⟨by decide, rfl, by decide, by decide⟩

/-- C7, what the code does: for a controller over the file store whose file
holds a non-empty record R, with plain JSON round tripping the zero record:
after a Logout that returns nil the file is not of length zero, it holds the
encoding of the zero record; RetrieveRecord then returns the empty record
together with the missing version error of the library decoder (the claim says:
with no error), and New against that store returns that error and no
controller, whatever the identifiers and library constructors. -/
theorem logout_leaves_versionless_record {κ γ : Type} (lib : Lib) (p : File)
    (a : msauth.Auth FS κ) (w : msauth.World FS κ) (R : AuthenticationRecord)
    (hp : a.p = File.provider lib p)
    (_hheld : File.RetrieveRecord lib p w.store = (R, none))
    (_hR : R ≠ emptyRecord)
    (hrt : lib.plainRoundTrips emptyRecord)
    (hok : (a.Logout w).1 = none) :
    File.RetrieveRecord lib p (a.Logout w).2.2.store = (emptyRecord, some errNoVersion) ∧
      (∃ data, lib.jsonMarshal emptyRecord = Except.ok data ∧ data ≠ [] ∧
        (a.Logout w).2.2.store.files p.filename = some data) ∧
      ∀ (az : msauth.Azure κ γ) (appName clientID tenantID : String) (scopes : List String),
        (msauth.New az (File.provider lib p) appName clientID tenantID scopes
          (a.Logout w).2.2).1 = (none, some errNoVersion) := by
  have hstore : (File.StoreRecord lib p emptyRecord w.store).1 = none := by
    have h := hok
    simp only [msauth.Auth.Logout, hp, File.provider] at h
    exact h
  have hst : (a.Logout w).2.2.store = (File.StoreRecord lib p emptyRecord w.store).2 := by
    simp only [msauth.Auth.Logout, hp, File.provider]
  have hretr : File.RetrieveRecord lib p (a.Logout w).2.2.store
      = (emptyRecord, some errNoVersion) := by
    rw [hst, retrieve_after_store lib p emptyRecord w.store hrt hstore]
    simp [emptyRecord]
  refine ⟨hretr, ?_, ?_⟩
  · obtain ⟨data, hm, hfile⟩ := storeRecord_content lib p emptyRecord w.store hstore
    exact ⟨data, hm, (hrt data hm).1, by rw [hst]; exact hfile⟩
  · intro az appName clientID tenantID scopes
    simp [msauth.New, File.provider, hretr]

/-- Instance of C7: the sample file holds the sample record, Logout returns
nil, and RetrieveRecord then fails for want of a version. -/
theorem logout_leaves_versionless_record_witness :
    (({ Record := msauth.sampleRecord,
        credential := msauth.scriptedCredential msauth.sampleRecord none,
        p := File.provider sampleLib sampleFile,
        Scopes := [] } : msauth.Auth FS Unit).Logout
      { store := fsWith (some (sampleMarshal msauth.sampleRecord)), cred := (),
        trace := [] }).1 = none ∧
    File.RetrieveRecord sampleLib sampleFile
      (({ Record := msauth.sampleRecord,
          credential := msauth.scriptedCredential msauth.sampleRecord none,
          p := File.provider sampleLib sampleFile,
          Scopes := [] } : msauth.Auth FS Unit).Logout
        { store := fsWith (some (sampleMarshal msauth.sampleRecord)), cred := (),
          trace := [] }).2.2.store = (emptyRecord, some errNoVersion) :=
  ⟨rfl,
   (logout_leaves_versionless_record (γ := Unit) sampleLib sampleFile
    { Record := msauth.sampleRecord,
      credential := msauth.scriptedCredential msauth.sampleRecord none,
      p := File.provider sampleLib sampleFile,
      Scopes := [] }
    { store := fsWith (some (sampleMarshal msauth.sampleRecord)), cred := (), trace := [] }
    msauth.sampleRecord rfl (by decide) (by decide) (sampleLib_plainRoundTrips emptyRecord)
    rfl).1⟩

/-- C8, what the code does: HasRecord returns true exactly when the record
RetrieveRecord returns IS the empty record (the claim says: is not), together
with the error of RetrieveRecord. On a zero length file RetrieveRecord returns
the empty record and HasRecord answers true; on a file holding the sample
record HasRecord answers false. -/
theorem hasRecord_is_inverted (lib : Lib) (p : File) (fs : FS) :
    File.HasRecord lib p fs =
        (decide ((File.RetrieveRecord lib p fs).1 = emptyRecord),
          (File.RetrieveRecord lib p fs).2) ∧
      File.RetrieveRecord sampleLib sampleFile (fsWith (some [])) = (emptyRecord, none) ∧
      File.HasRecord sampleLib sampleFile (fsWith (some [])) = (true, none) ∧
      File.RetrieveRecord sampleLib sampleFile (fsWith (some (sampleMarshal msauth.sampleRecord)))
        = (msauth.sampleRecord, none) ∧
      File.HasRecord sampleLib sampleFile (fsWith (some (sampleMarshal msauth.sampleRecord)))
        = (false, none) := by
  refine ⟨rfl, by decide, by decide, by decide, by decide⟩

/-- C9: RetrieveRecord returns the empty record and the nil error whenever the
file exists with length zero, in particular right after NewFile created it in
a directory that did not hold it; and it returns an error when the file is
missing. -/
theorem retrieveRecord_empty_and_missing (lib : Lib) (p : File) (fsEmpty fsMissing : FS)
    (appConfig : String) (fsFresh : FS)
    (hempty : fsEmpty.files p.filename = some [])
    (hmissing : fsMissing.files p.filename = none)
    (hfresh : fsFresh.files (lib.filepathJoin appConfig "credentials.json") = none)
    (hdir : fsFresh.canCreate (lib.filepathJoin appConfig "credentials.json") = true) :
    File.RetrieveRecord lib p fsEmpty = (emptyRecord, none) ∧
      (File.RetrieveRecord lib p fsMissing).2 ≠ none ∧
      (File.RetrieveRecord lib p fsMissing).1 = emptyRecord ∧
      ∃ f fs1, NewFile lib appConfig fsFresh = ((some f, none), fs1) ∧
        fs1.files f.filename = some [] ∧
        File.RetrieveRecord lib f fs1 = (emptyRecord, none) := by
  refine ⟨?_, ?_, ?_, ?_⟩
  · rw [retrieveRecord_of_content lib p fsEmpty [] hempty]; rfl
  · simp [File.RetrieveRecord, osOpen, hmissing]
  · simp [File.RetrieveRecord, osOpen, hmissing]
  · have hput : (fsFresh.put (lib.filepathJoin appConfig "credentials.json") []).files
        (lib.filepathJoin appConfig "credentials.json") = some [] := by
      simp [FS.put]
    refine ⟨{ filename := lib.filepathJoin appConfig "credentials.json" },
      fsFresh.put (lib.filepathJoin appConfig "credentials.json") [], ?_, hput, ?_⟩
    · simp [NewFile, osOpenFileCreate, hfresh, hdir, fileClose]
    · rw [retrieveRecord_of_content lib _ _ [] hput]; rfl

/-- Instance of C9 on the sample file: empty, missing, freshly created. -/
theorem retrieveRecord_empty_and_missing_witness :
    File.RetrieveRecord sampleLib sampleFile (fsWith (some [])) = (emptyRecord, none) ∧
      (File.RetrieveRecord sampleLib sampleFile (fsWith none)).2 ≠ none ∧
      ∃ f fs1, NewFile sampleLib "/cfg" (fsWith none) = ((some f, none), fs1) ∧
        fs1.files f.filename = some [] ∧
        File.RetrieveRecord sampleLib f fs1 = (emptyRecord, none) :=
  have h := retrieveRecord_empty_and_missing sampleLib sampleFile (fsWith (some []))
    (fsWith none) "/cfg" (fsWith none) (by decide) (by decide) (by decide) (by decide)
  ⟨h.1, h.2.1, h.2.2.2⟩

end provider
